import Mathlib

/-!
Verification development for the amocrm-events-monitor pipeline.

Shallow embedding of the core components:
- `app/http_client.py` (`AmoCRMHTTPClient.get` wrapped in a tenacity retry
  decorator with `stop_after_attempt(3)`, `reraise=True`,
  `retry_if_exception_type((httpx.HTTPStatusError, httpx.RequestError))`);
- `app/amocrm_client.py` (`AmoCRMClient.get_events` paginated fetch loop);
- `app/events_processor.py` (`filter_automated_events`, `count_event_types`,
  `get_top_events`);
- `app/latency_checker.py` (SQLite-backed latency store: `save_latency`,
  `get_max_latency_for_date`, `delete_latency_for_date`);
- `app/main_daily_report.py` (`format_time`, `get_event_name`,
  `prepare_report_data`).
-/

namespace AmoMonitor

/-! ## HTTP transport model (`app/http_client.py`) -/

/-- JSON payloads are opaque to the retry logic; we model a response body
abstractly as a natural number tag. -/
abbrev Json := Nat

/-- Outcome of one underlying transport request: either an HTTP response with a
status code and body (what `self._client.get` returns), or a network-level
failure (`httpx.RequestError`). -/
inductive TransportResult where
  | response (code : Nat) (body : Json)
  | netError
deriving DecidableEq, Repr

/-- A transport behaviour: what the underlying client returns on the i-th
attempt (attempts numbered from 1, as tenacity numbers them). -/
abbrev Transport := Nat → TransportResult

/-- Errors that can escape the body of `AmoCRMHTTPClient.get`:
`httpx.HTTPStatusError` (carrying the status code) raised by
`raise_for_status`, or `httpx.RequestError` for network failures. -/
inductive GetError where
  | statusError (code : Nat)
  | requestError
deriving DecidableEq, Repr

/-- The retry predicate of the tenacity decorator on `AmoCRMHTTPClient.get`:
`retry_if_exception_type((httpx.HTTPStatusError, httpx.RequestError))`.
Both exception classes are retried, regardless of the status code carried. -/
def retryOn : GetError → Bool
  | .statusError _ => true
  | .requestError => true

/-- Whether a status code is in the set the source treats as transient
(`429, 500, 502, 503, 504`, line 121 of `http_client.py`). -/
def isTransientCode (code : Nat) : Bool :=
  code = 429 || code = 500 || code = 502 || code = 503 || code = 504

/-- Whether one transport outcome is a transient failure in the spec's
taxonomy: a rate-limit / 5xx-listed status, or a network-level error. -/
def isTransientResult : TransportResult → Bool
  | .netError => true
  | .response code _ => isTransientCode code

/-- Predicate for `httpx.Response.raise_for_status`: it succeeds exactly on 2xx codes. -/
def isSuccessCode (code : Nat) : Bool :=
  200 ≤ code && code < 300

/-- One execution of the body of `AmoCRMHTTPClient.get`
(`http_client.py` lines 118-136): perform the request; if the status code is
in the transient set, log and `raise_for_status` (which raises since those
codes are not 2xx); then `raise_for_status` again (raising
`httpx.HTTPStatusError` on any non-2xx code) and return the parsed body. A
network failure surfaces as `httpx.RequestError`. The `except` clauses only
log and re-raise. -/
def getBody (r : TransportResult) : Except GetError Json :=
  match r with
  | .netError => .error .requestError
  | .response code body =>
    if isTransientCode code then
      .error (.statusError code)
    else if isSuccessCode code then
      .ok body
    else
      .error (.statusError code)

/-- The error that the body of `get` raises on a failing transport outcome
(meaningful only when the outcome is not a 2xx response). -/
def errorOf : TransportResult → GetError
  | .netError => .requestError
  | .response code _ => .statusError code

/-- The tenacity retry loop with `stop_after_attempt` and `reraise=True`: run
the operation at attempt number `attempt`; on success stop; on an exception
matched by `retryOn` retry while the remaining-attempt budget `fuel`
(`maxAttempts - attempt`) is positive, otherwise re-raise the last error
unchanged. Returns the final outcome together with the number of the last
attempt made (= total attempts, as attempts are numbered from 1). The
exponential backoff (`wait_exponential(multiplier=1, min=2, max=10)`) only
inserts delays and does not affect outcomes, so it is not modelled. -/
def retryLoop (op : Nat → Except GetError Json) (attempt fuel : Nat) :
    Except GetError Json × Nat :=
  match op attempt with
  | .ok d => (.ok d, attempt)
  | .error e =>
    match fuel with
    | 0 => (.error e, attempt)
    | fuel' + 1 =>
      if retryOn e then retryLoop op (attempt + 1) fuel' else (.error e, attempt)

/-- Model of `AmoCRMHTTPClient.get` as seen by callers: the body wrapped by the
tenacity decorator with `stop_after_attempt(3)`, starting at attempt 1 with a
budget of 2 further attempts. Returns the outcome and the number of
invocations of the underlying transport. -/
def amoGet (t : Transport) : Except GetError Json × Nat :=
  retryLoop (fun i => getBody (t i)) 1 2

/-! ## Events processor (`app/events_processor.py`)

Events are dictionaries; the processor only reads the `type` and `created_by`
keys (`event.get(...)`, absent keys yielding `None`), so an event is embedded
as those two optional fields. Extra vendor fields are opaque and irrelevant to
every operation modelled here. -/

structure Event where
  type : Option String
  created_by : Option Int
deriving DecidableEq, Repr

/-- The keep-condition of `filter_automated_events` (line 52):
`created_by is None or created_by not in user_ids`. -/
def isAutomated (user_ids : List Int) (e : Event) : Bool :=
  match e.created_by with
  | none => true
  | some u => !(user_ids.contains u)

/-- Model of `EventsProcessor.filter_automated_events` (lines 29-62): start from an
empty list and append each event whose `created_by` is `None` or not among
`user_ids`. -/
def filter_automated_events (events : List Event) (user_ids : List Int) :
    List Event :=
  events.foldl (fun acc e => if isAutomated user_ids e then acc ++ [e] else acc) []

/-- Model of `event.get("type", "unknown")` (line 74). -/
def eventLabel (e : Event) : String :=
  e.type.getD "unknown"

/-- Dictionary lookup `counts.get(label, 0)` on the association-list
embedding. -/
def getCount : List (String × Nat) → String → Nat
  | [], _ => 0
  | (k, n) :: rest, label => if k = label then n else getCount rest label

/-- A Python `dict[str, int]` / `collections.Counter` in insertion order,
embedded as an association list with pairwise-distinct keys maintained by
construction. `bump` increments the count of a label, appending a fresh
`(label, 1)` entry at the end on first occurrence — exactly the insertion
order `Counter` produces. -/
def bump (label : String) : List (String × Nat) → List (String × Nat)
  | [] => [(label, 1)]
  | (k, n) :: rest =>
    if k = label then (k, n + 1) :: rest else (k, n) :: bump label rest

/-- Model of `EventsProcessor.count_event_types` (lines 64-81):
`dict(Counter(event.get("type", "unknown") for event in events))`. -/
def count_event_types (events : List Event) : List (String × Nat) :=
  events.foldl (fun acc e => bump (eventLabel e) acc) []

/-- Sum of the values of a count mapping (`sum(counts.values())`). -/
def sumCounts (m : List (String × Nat)) : Nat :=
  (m.map (·.2)).sum

/-- The comparison realised by Python's
`sorted(type_counts.items(), key=lambda x: x[1], reverse=True)`: a sorts
before b when its count is at least b's. -/
def countGE (a b : String × Nat) : Prop := b.2 ≤ a.2

instance : DecidableRel countGE := fun a b => Nat.decLe b.2 a.2

instance : IsTotal (String × Nat) countGE := ⟨fun a b => Nat.le_total b.2 a.2⟩

instance : IsTrans (String × Nat) countGE := ⟨fun _ _ _ h1 h2 => Nat.le_trans h2 h1⟩

/-- Python's `sorted(..., key=lambda x: x[1], reverse=True)`: a stable sort
descending by count. Insertion sort which places each element before the
first earlier-sorted element with a smaller-or-equal count is exactly this
stable sort. -/
def sortByCountDesc (m : List (String × Nat)) : List (String × Nat) :=
  List.insertionSort countGE m

/-- Model of `limit = limit or self.top_limit` (line 98): Python truthiness makes a
passed limit of `0` (and `None`) fall back to the processor's `top_limit`. -/
def resolveLimit (top_limit : Nat) (limit : Option Nat) : Nat :=
  match limit with
  | none => top_limit
  | some l => if l = 0 then top_limit else l

/-- Model of `EventsProcessor.get_top_events` (lines 83-106):
`sorted(type_counts.items(), key=lambda x: x[1], reverse=True)[:limit]`,
where `top_limit` is the processor's configured limit (`self.top_limit`,
default `settings.TOP_EVENTS_LIMIT = 5`). -/
def get_top_events (top_limit : Nat) (type_counts : List (String × Nat))
    (limit : Option Nat) : List (String × Nat) :=
  (sortByCountDesc type_counts).take (resolveLimit top_limit limit)

/-! ## Paginated fetch (`app/amocrm_client.py`, `AmoCRMClient.get_events`)

The loop consumes, per page, the embedded event list
(`response.get("_embedded", {}).get("events", [])`) and the presence of a
`next` entry in `response.get("_links", {})`. A server model maps each page
number to such a response; request failures abort the whole fetch (they
propagate through the retry wrapper modelled above) and are outside this
model, which covers the successful-response loop. -/

structure PageResponse where
  events : List Event
  hasNext : Bool
deriving DecidableEq, Repr

/-- A paginated source: what the server answers for each page number
(numbered from 1, as the loop counts). -/
abbrev Server := Nat → PageResponse

/-- The `while True` pagination loop of `get_events` (lines 94-120): request
the current page; if its event list is empty, stop; otherwise extend the
accumulator; if `_links` has no `next` entry, stop; otherwise increment the
page. `fuel` bounds the number of iterations of the source's unbounded loop;
`none` means the loop did not finish within `fuel` requests. Returns the
accumulated events together with the number of requests made. -/
def getEventsLoop (srv : Server) : Nat → Nat → List Event → Nat →
    Option (List Event × Nat)
  | 0, _, _, _ => none
  | fuel + 1, page, acc, requests =>
    let resp := srv page
    if resp.events = [] then
      some (acc, requests + 1)
    else if resp.hasNext then
      getEventsLoop srv fuel (page + 1) (acc ++ resp.events) (requests + 1)
    else
      some (acc ++ resp.events, requests + 1)

/-- Model of `AmoCRMClient.get_events` against a server model: the loop starting at
page 1 with an empty accumulator. -/
def get_events (srv : Server) (fuel : Nat) : Option (List Event × Nat) :=
  getEventsLoop srv fuel 1 [] 0

/-- Concatenation of the event lists of pages `1..n` in page order. -/
def concatPages (srv : Server) : Nat → List Event
  | 0 => []
  | n + 1 => concatPages srv n ++ (srv (n + 1)).events

/-! ## Latency store (`app/latency_checker.py`)

The store is the SQLite table `latency(timestamp TEXT, latency_ms INTEGER)`,
embedded as the list of its rows in insertion (rowid) order. Timestamps enter
the table only through `save_latency`, formatted as `YYYY-MM-DDTHH:MM:SSZ`. -/

/-- The fields of a `datetime` instant, to second precision (the probe stores
UTC instants; tz-awareness does not affect the formatted string). -/
structure Timestamp where
  year : Nat
  month : Nat
  day : Nat
  hour : Nat
  minute : Nat
  second : Nat
deriving DecidableEq, Repr

/-- Gregorian leap-year rule, as Python's `calendar`/`datetime` use it. -/
def isLeapYear (y : Nat) : Bool :=
  y % 4 = 0 && (y % 100 ≠ 0 || y % 400 = 0)

def daysInMonth (y m : Nat) : Nat :=
  if m = 2 then (if isLeapYear y then 29 else 28)
  else if m = 4 ∨ m = 6 ∨ m = 9 ∨ m = 11 then 30
  else 31

/-- The invariants Python's `datetime` guarantees for its fields
(`MINYEAR = 1`, `MAXYEAR = 9999`, real calendar dates, second precision). -/
def Timestamp.Valid (t : Timestamp) : Prop :=
  1 ≤ t.year ∧ t.year ≤ 9999 ∧ 1 ≤ t.month ∧ t.month ≤ 12 ∧
  1 ≤ t.day ∧ t.day ≤ daysInMonth t.year t.month ∧
  t.hour ≤ 23 ∧ t.minute ≤ 59 ∧ t.second ≤ 59

instance (t : Timestamp) : Decidable t.Valid := by
  unfold Timestamp.Valid
  infer_instance

/-- The ASCII digit for `n % 10`. -/
def digitChar (n : Nat) : Char :=
  Char.ofNat (48 + n % 10)

/-- Two-digit zero-padded decimal (`%m`, `%d`, `%H`, `%M`, `%S` output for
in-range values). -/
def pad2Chars (n : Nat) : List Char :=
  [digitChar (n / 10), digitChar n]

/-- Four-digit zero-padded decimal (`%Y` output for years up to 9999). -/
def pad4Chars (n : Nat) : List Char :=
  [digitChar (n / 1000), digitChar (n / 100), digitChar (n / 10), digitChar n]

def dateChars (t : Timestamp) : List Char :=
  pad4Chars t.year ++ ['-'] ++ pad2Chars t.month ++ ['-'] ++ pad2Chars t.day

def timeChars (t : Timestamp) : List Char :=
  ['T'] ++ pad2Chars t.hour ++ [':'] ++ pad2Chars t.minute ++ [':'] ++
    pad2Chars t.second ++ ['Z']

/-- Model of `timestamp.strftime("%Y-%m-%dT%H:%M:%SZ")` (`latency_checker.py`
line 112), for field values in `datetime`'s ranges. -/
def fmtTimestamp (t : Timestamp) : String :=
  ⟨dateChars t ++ timeChars t⟩

/-- The `YYYY-MM-DD` string of a timestamp — the `date` argument the daily
report passes to the store queries. -/
def datePart (t : Timestamp) : String :=
  ⟨dateChars t⟩

/-- SQLite's `date(timestamp)` as it behaves on the store's
`YYYY-MM-DDTHH:MM:SSZ` strings: the calendar-date prefix, i.e. the first 10
characters. -/
def dateOf (s : String) : String :=
  ⟨s.data.take 10⟩

/-- Rows of the `latency` table in rowid order. -/
abbrev LatencyStore := List (String × Nat)

/-- Model of `LatencyChecker.save_latency` (lines 98-130): `INSERT INTO latency
(timestamp, latency_ms) VALUES (?, ?)` with the formatted timestamp. -/
def save_latency (db : LatencyStore) (latency_ms : Nat) (t : Timestamp) :
    LatencyStore :=
  db ++ [(fmtTimestamp t, latency_ms)]

/-- Model of `LatencyChecker.get_max_latency_for_date` (lines 146-184):
`SELECT timestamp, latency_ms FROM latency WHERE date(timestamp) = ?
ORDER BY latency_ms DESC LIMIT 1`, then `fetchone()` (`None` when no row
matches). The sort on `latency_ms` descending is modelled as the stable
descending sort by the second component (`countGE`); SQL leaves the order of
ties unspecified, as does the spec. -/
def get_max_latency_for_date (db : LatencyStore) (d : String) :
    Option (String × Nat) :=
  (List.insertionSort countGE (db.filter (fun r => dateOf r.1 == d))).head?

/-- Model of `LatencyChecker.delete_latency_for_date` (lines 186-217):
`DELETE FROM latency WHERE date(timestamp) = ?`, returning `cursor.rowcount`,
the number of rows removed. -/
def delete_latency_for_date (db : LatencyStore) (d : String) :
    LatencyStore × Nat :=
  (db.filter (fun r => !(dateOf r.1 == d)),
   (db.filter (fun r => dateOf r.1 == d)).length)

/-! ## Timestamp parsing (`datetime.strptime(s, "%Y-%m-%dT%H:%M:%SZ")`)

`format_time` in `app/main_daily_report.py` parses its argument with
`datetime.strptime`. CPython's `_strptime` matches `%Y` as exactly four
digits (`\d\d\d\d`), `%m` as `(1[0-2]|0[1-9]|[1-9])`, `%d` as
`(3[01]|[12]\d|0[1-9]|[1-9]| [1-9])` (note the space-padded final
alternative), `%H` as `(2[0-3]|[0-1]\d|\d)`, `%M` as `([0-5]\d|\d)`, `%S` as
`(6[0-1]|[0-5]\d|\d)` (admitting leap seconds 60-61 at the regex stage), and
compiles the whole pattern with `re.IGNORECASE`, so the `T` and `Z` literals
also match their lowercase forms (no other character case-folds to `t` or `z`
in sre's tables). The whole string must be consumed, and then `datetime(...)`
validates the fields, rejecting year 0, days beyond the month's length, and
seconds 60-61. Because every numeric field is followed by a non-digit
literal, the regex's backtracking is equivalent to: take a valid two-digit
match when the next two characters form one, otherwise take a valid
one-digit match — which is what `parseField` does; the alternatives of `%d`
starting with a space and with a digit are disjoint on their first
character, so `parseDay` tries the space-padded form by shape. -/

def digitVal (c : Char) : Nat :=
  c.toNat - 48

/-- Field `%Y`: exactly four digits (`\d\d\d\d`). -/
def parseYear (l : List Char) : Option (Nat × List Char) :=
  match l with
  | c1 :: c2 :: c3 :: c4 :: rest =>
    if c1.isDigit && c2.isDigit && c3.isDigit && c4.isDigit then
      some (1000 * digitVal c1 + 100 * digitVal c2 + 10 * digitVal c3 +
        digitVal c4, rest)
    else
      none
  | _ => none

/-- A two-digit-preferred numeric field: take the leading digit pair when it
forms a value accepted by `pairOK`, otherwise a single leading digit accepted
by `singleOK`. -/
def parseField (pairOK singleOK : Nat → Bool) : List Char →
    Option (Nat × List Char)
  | c1 :: c2 :: rest =>
    if c1.isDigit && c2.isDigit then
      if pairOK (10 * digitVal c1 + digitVal c2) then
        some (10 * digitVal c1 + digitVal c2, rest)
      else if singleOK (digitVal c1) then
        some (digitVal c1, c2 :: rest)
      else
        none
    else if c1.isDigit && singleOK (digitVal c1) then
      some (digitVal c1, c2 :: rest)
    else
      none
  | [c1] =>
    if c1.isDigit && singleOK (digitVal c1) then some (digitVal c1, []) else none
  | [] => none

/-- Field `%d`: the numeric alternatives handled by `parseField`, plus
CPython's space-padded final alternative ` [1-9]`, whose first character (a
space) is disjoint from the digit-leading alternatives. -/
def parseDay (l : List Char) : Option (Nat × List Char) :=
  match l with
  | ' ' :: c :: rest =>
    if c.isDigit && 1 ≤ digitVal c then some (digitVal c, rest) else none
  | _ => parseField (fun v => 1 ≤ v && v ≤ 31) (fun v => 1 ≤ v) l

/-- A literal character of the format string, matched exactly (used for the
`-` and `:` literals, which `re.IGNORECASE` does not affect). -/
def expectChar (c : Char) : List Char → Option (List Char)
  | x :: rest => if x = c then some rest else none
  | [] => none

/-- A letter literal of the format string under `re.IGNORECASE`: for `T` and
`Z` the only case-insensitive matches are the letters themselves and their
lowercase forms (sre's extra case-equivalence table adds nothing for `t` or
`z`). -/
def expectLiteralCI (upper lower : Char) : List Char → Option (List Char)
  | x :: rest => if x = upper ∨ x = lower then some rest else none
  | [] => none

/-- Model of `datetime.strptime(s, "%Y-%m-%dT%H:%M:%SZ")`: `some` on the strings the
call parses (with the field values it produces), `none` on the strings where
it raises `ValueError` — a regex mismatch, unconverted trailing data, or
`datetime(...)` rejecting year 0, a day beyond the month's length, or a leap
second. -/
def parseTimestampChars (l : List Char) : Option Timestamp := do
  let (y, r1) ← parseYear l
  let r2 ← expectChar '-' r1
  let (mo, r3) ← parseField (fun v => 1 ≤ v && v ≤ 12) (fun v => 1 ≤ v) r2
  let r4 ← expectChar '-' r3
  let (d, r5) ← parseDay r4
  let r6 ← expectLiteralCI 'T' 't' r5
  let (h, r7) ← parseField (fun v => v ≤ 23) (fun _ => true) r6
  let r8 ← expectChar ':' r7
  let (mi, r9) ← parseField (fun v => v ≤ 59) (fun _ => true) r8
  let r10 ← expectChar ':' r9
  let (sec, r11) ← parseField (fun v => v ≤ 61) (fun _ => true) r10
  let r12 ← expectLiteralCI 'Z' 'z' r11
  match r12 with
  | [] =>
    if 1 ≤ y ∧ d ≤ daysInMonth y mo ∧ sec ≤ 59 then
      some ⟨y, mo, d, h, mi, sec⟩
    else
      none
  | _ => none

def parseTimestamp (s : String) : Option Timestamp :=
  parseTimestampChars s.data

/-! ## Daily report building (`app/main_daily_report.py`) -/

/-- Model of `format_time` (lines 117-132): parse the ISO timestamp and reformat it as
`HH:MM` (`dt.strftime("%H:%M")`); on any parse failure, log and return the
input string unchanged. -/
def format_time (timestamp_str : String) : String :=
  match parseTimestamp timestamp_str with
  | some t => ⟨pad2Chars t.hour ++ [':'] ++ pad2Chars t.minute⟩
  | none => timestamp_str

/-- Model of `format_date` (lines 104-114): `date.strftime("%d.%m.%Y")`. -/
def format_date (t : Timestamp) : String :=
  ⟨pad2Chars t.day ++ ['.'] ++ pad2Chars t.month ++ ['.'] ++ pad4Chars t.year⟩

/-- A spreadsheet cell of the `list[list[Any]]` report rows: the source puts
strings and integers in them. -/
inductive Cell where
  | str (s : String)
  | num (n : Nat)
deriving DecidableEq, Repr

/-- The literal `EVENT_TYPE_NAMES` translation table
(`main_daily_report.py` lines 40-101), in source order. -/
def EVENT_TYPE_NAMES : List (String × String) :=
  [("lead_added", "Новая сделка"),
   ("lead_deleted", "Сделка удалена"),
   ("lead_restored", "Сделка восстановлена"),
   ("lead_status_changed", "Изменение этапа продажи"),
   ("lead_linked", "Прикрепление сделки"),
   ("lead_unlinked", "Открепление сделки"),
   ("contact_added", "Новый контакт"),
   ("contact_deleted", "Контакт удален"),
   ("contact_restored", "Контакт восстановлен"),
   ("contact_linked", "Прикрепление контакта"),
   ("contact_unlinked", "Открепление контакта"),
   ("company_added", "Новая компания"),
   ("company_deleted", "Компания удалена"),
   ("company_restored", "Компания восстановлена"),
   ("company_linked", "Прикрепление компании"),
   ("company_unlinked", "Открепление компании"),
   ("customer_added", "Новый покупатель"),
   ("customer_deleted", "Покупатель удален"),
   ("customer_status_changed", "Изменение этапа покупателя"),
   ("customer_linked", "Прикрепление покупателя"),
   ("customer_unlinked", "Открепление покупателя"),
   ("task_added", "Новая задача"),
   ("task_deleted", "Задача удалена"),
   ("task_completed", "Завершение задачи"),
   ("task_type_changed", "Изменение типа задачи"),
   ("task_text_changed", "Изменение текста задачи"),
   ("task_deadline_changed", "Изменение даты исполнения задачи"),
   ("task_result_added", "Результат по задаче"),
   ("incoming_call", "Входящий звонок"),
   ("outgoing_call", "Исходящий звонок"),
   ("incoming_chat_message", "Входящее сообщение"),
   ("outgoing_chat_message", "Исходящее сообщение"),
   ("entity_direct_message", "Сообщение внутреннего чата"),
   ("incoming_sms", "Входящее SMS"),
   ("outgoing_sms", "Исходящее SMS"),
   ("entity_tag_added", "Теги добавлены"),
   ("entity_tag_deleted", "Теги убраны"),
   ("entity_linked", "Прикрепление"),
   ("entity_unlinked", "Открепление"),
   ("sale_field_changed", "Изменение поля Бюджет"),
   ("name_field_changed", "Изменение поля Название"),
   ("ltv_field_changed", "Сумма покупок"),
   ("custom_field_value_changed", "Изменение поля"),
   ("entity_responsible_changed", "Ответственный изменен"),
   ("robot_replied", "Ответ робота"),
   ("intent_identified", "Тема вопроса определена"),
   ("nps_rate_added", "Новая оценка NPS"),
   ("link_followed", "Переход по ссылке"),
   ("transaction_added", "Добавлена покупка"),
   ("common_note_added", "Новое примечание"),
   ("common_note_deleted", "Примечание удалено"),
   ("attachment_note_added", "Добавлен новый файл"),
   ("targeting_in_note_added", "Добавление в ретаргетинг"),
   ("targeting_out_note_added", "Удаление из ретаргетинга"),
   ("geo_note_added", "Новое примечание с гео-меткой"),
   ("service_note_added", "Новое системное примечание"),
   ("site_visit_note_added", "Заход на сайт"),
   ("message_to_cashier_note_added", "LifePay: Сообщение кассиру"),
   ("key_action_completed", "Ключевое действие"),
   ("entity_merged", "Выполнено объединение")]

/-- Model of `get_event_name` (lines 135-145): `EVENT_TYPE_NAMES.get(event_type,
event_type)` — the Russian label when the table has one, otherwise the raw
type tag. -/
def get_event_name (event_type : String) : String :=
  match EVENT_TYPE_NAMES.find? (fun p => p.1 == event_type) with
  | some p => p.2
  | none => event_type

/-- The `for i, (event_type, count) in enumerate(top_events)` loop of
`prepare_report_data` (lines 185-191), carrying the running index: row 0
carries the peak latency and peak time when a peak exists; every other row
leaves those two cells as empty strings. -/
def reportRows (date_str : String) (max_latency : Option (String × Nat)) :
    Nat → List (String × Nat) → List (List Cell)
  | _, [] => []
  | i, (event_type, count) :: rest =>
    (match i, max_latency with
     | 0, some (peak_time, latency_ms) =>
       [.str date_str, .str (get_event_name event_type), .num count,
        .num latency_ms, .str (format_time peak_time)]
     | _, _ =>
       [.str date_str, .str (get_event_name event_type), .num count,
        .str "", .str ""]) ::
    reportRows date_str max_latency (i + 1) rest

/-- Model of `prepare_report_data` (lines 148-194): with no top events, one
placeholder row with the literal label "Нет событий" and count 0 (carrying
the peak fields when a peak exists); otherwise one row per top-event entry
via the enumerate loop. -/
def prepare_report_data (report_date : Timestamp)
    (top_events : List (String × Nat)) (max_latency : Option (String × Nat)) :
    List (List Cell) :=
  let date_str := format_date report_date
  match top_events with
  | [] =>
    match max_latency with
    | some (peak_time, latency_ms) =>
      [[.str date_str, .str "Нет событий", .num 0, .num latency_ms,
        .str (format_time peak_time)]]
    | none =>
      [[.str date_str, .str "Нет событий", .num 0, .str "", .str ""]]
  | _ => reportRows date_str max_latency 0 top_events

/-! ### Retry loop stepping lemmas -/

theorem retryLoop_ok {op : Nat → Except GetError Json} {attempt : Nat}
    (fuel : Nat) {d : Json} (h : op attempt = .ok d) :
    retryLoop op attempt fuel = (.ok d, attempt) := by
  unfold retryLoop
  rw [h]

theorem retryLoop_error_stop {op : Nat → Except GetError Json} {attempt : Nat}
    {e : GetError} (h : op attempt = .error e) :
    retryLoop op attempt 0 = (.error e, attempt) := by
  unfold retryLoop
  rw [h]

theorem retryLoop_error_step {op : Nat → Except GetError Json} {attempt : Nat}
    (fuel : Nat) {e : GetError} (h : op attempt = .error e)
    (hr : retryOn e = true) :
    retryLoop op attempt (fuel + 1) = retryLoop op (attempt + 1) fuel := by
  conv_lhs => unfold retryLoop
  rw [h]
  simp [hr]

/-- Every `GetError` is matched by the decorator's retry predicate: the
tenacity annotation retries on any `httpx.HTTPStatusError`, whatever the
status code, and on any `httpx.RequestError`. -/
theorem retryOn_eq_true (e : GetError) : retryOn e = true := by
  cases e <;> rfl

/-- On a transient transport outcome the body of `get` raises the
corresponding error. -/
theorem getBody_transient {r : TransportResult}
    (h : isTransientResult r = true) : getBody r = .error (errorOf r) := by
  cases r with
  | netError => rfl
  | response code body =>
    simp only [isTransientResult] at h
    simp [getBody, errorOf, h]

/-- On a 2xx response the body of `get` returns the parsed payload. -/
theorem getBody_success {code : Nat} {body : Json}
    (h : isSuccessCode code = true) :
    getBody (.response code body) = .ok body := by
  have hc : isTransientCode code = false := by
    simp only [isSuccessCode, Bool.and_eq_true, decide_eq_true_eq] at h
    simp only [isTransientCode, Bool.or_eq_false_iff, decide_eq_false_iff_not]
    omega
  simp [getBody, hc, h]

theorem retryLoop_last_attempt_le (op : Nat → Except GetError Json) :
    ∀ fuel attempt, attempt ≤ (retryLoop op attempt fuel).2 ∧
      (retryLoop op attempt fuel).2 ≤ attempt + fuel := by
  intro fuel
  induction fuel with
  | zero =>
    intro attempt
    unfold retryLoop
    cases h : op attempt <;> simp
  | succ fuel ih =>
    intro attempt
    unfold retryLoop
    cases h : op attempt with
    | ok d => simp
    | error e =>
      simp only [retryOn_eq_true, if_true]
      have := ih (attempt + 1)
      constructor <;> omega

/-- C1: the claim states that a non-transient HTTP failure such as a 404
propagates to the caller with exactly one attempt and no retry. The code
contradicts it (and its own class docstring, which promises retries only on
429/500/502/503/504): the tenacity predicate retries every
`httpx.HTTPStatusError`, so a transport that always answers 404 — a
non-transient status — is attempted 3 times before the 404 is surfaced. -/
theorem c1_404_retried_three_times :
    isTransientResult (.response 404 0) = false ∧
    amoGet (fun _ => .response 404 0) = (.error (.statusError 404), 3) := by
  exact ⟨rfl, rfl⟩

/-- C2: the retried GET makes between 1 and 3 attempts for every transport;
a transport failing transiently twice then answering 2xx yields success after
exactly 3 invocations; an always-transiently-failing transport yields failure
after exactly 3 attempts, surfacing the last underlying error unchanged. -/
theorem c2_retry_bound_and_exhaustion :
    (∀ t : Transport, 1 ≤ (amoGet t).2 ∧ (amoGet t).2 ≤ 3) ∧
    (∀ (t : Transport) (c : Nat) (b : Json),
      isTransientResult (t 1) = true → isTransientResult (t 2) = true →
      t 3 = .response c b → isSuccessCode c = true →
      amoGet t = (.ok b, 3)) ∧
    (∀ t : Transport,
      (∀ i, 1 ≤ i → i ≤ 3 → isTransientResult (t i) = true) →
      amoGet t = (.error (errorOf (t 3)), 3)) := by
  refine ⟨fun t => ?_, fun t c b ht1 ht2 ht3 hc => ?_, fun t ht => ?_⟩
  · have h := retryLoop_last_attempt_le (fun i => getBody (t i)) 2 1
    exact ⟨h.1, h.2⟩
  · calc amoGet t
        = retryLoop (fun i => getBody (t i)) 2 1 :=
          retryLoop_error_step 1 (getBody_transient ht1) (retryOn_eq_true _)
      _ = retryLoop (fun i => getBody (t i)) 3 0 :=
          retryLoop_error_step 0 (getBody_transient ht2) (retryOn_eq_true _)
      _ = (.ok b, 3) :=
          retryLoop_ok 0 (by show getBody (t 3) = _; rw [ht3]; exact getBody_success hc)
  · calc amoGet t
        = retryLoop (fun i => getBody (t i)) 2 1 :=
          retryLoop_error_step 1 (getBody_transient (ht 1 (by omega) (by omega)))
            (retryOn_eq_true _)
      _ = retryLoop (fun i => getBody (t i)) 3 0 :=
          retryLoop_error_step 0 (getBody_transient (ht 2 (by omega) (by omega)))
            (retryOn_eq_true _)
      _ = (.error (errorOf (t 3)), 3) :=
          retryLoop_error_stop (getBody_transient (ht 3 (by omega) (by omega)))

/-- Witness for C2 at concrete transports: two network failures then a 200
response succeed on attempt 3; a constant-503 transport fails after 3
attempts with the 503 error. -/
theorem c2_retry_bound_and_exhaustion_witness :
    amoGet (fun i => if i ≤ 2 then .netError else .response 200 7) = (.ok 7, 3) ∧
    amoGet (fun _ => .response 503 0) = (.error (.statusError 503), 3) := by
  constructor
  · exact c2_retry_bound_and_exhaustion.2.1 _ 200 7 rfl rfl rfl rfl
  · exact c2_retry_bound_and_exhaustion.2.2 _ (fun i _ _ => rfl)

/-! ### Events processor lemmas -/

theorem isAutomated_eq (U : List Int) (e : Event) :
    isAutomated U e =
      decide (e.created_by = none ∨ ∀ u ∈ U, e.created_by ≠ some u) := by
  cases h : e.created_by with
  | none => simp [isAutomated, h]
  | some u =>
    by_cases hu : u ∈ U
    · simp [isAutomated, h, hu]
    · simp [isAutomated, h, hu]
      exact fun v hv hvu => hu (hvu ▸ hv)

theorem filter_automated_foldl (U : List Int) :
    ∀ (E : List Event) (acc : List Event),
      E.foldl (fun acc e => if isAutomated U e then acc ++ [e] else acc) acc =
        acc ++ E.filter (isAutomated U) := by
  intro E
  induction E with
  | nil => intro acc; simp
  | cons e es ih =>
    intro acc
    by_cases h : isAutomated U e <;>
      simp [List.foldl_cons, h, ih, List.filter_cons]

theorem sumCounts_bump (label : String) (m : List (String × Nat)) :
    sumCounts (bump label m) = sumCounts m + 1 := by
  induction m with
  | nil => rfl
  | cons p rest ih =>
    obtain ⟨k, n⟩ := p
    by_cases h : k = label <;> simp [bump, h, sumCounts] at * <;> omega

theorem getCount_bump (label l : String) (m : List (String × Nat)) :
    getCount (bump label m) l = getCount m l + (if label = l then 1 else 0) := by
  induction m with
  | nil => by_cases h : label = l <;> simp [bump, getCount, h]
  | cons p rest ih =>
    obtain ⟨k, n⟩ := p
    by_cases hk : k = label
    · subst hk
      by_cases hl : k = l <;> simp [bump, getCount, hl]
    · by_cases hl : k = l
      · have hll : ¬ label = l := fun h => hk (hl.trans h.symm)
        subst hl
        simp [bump, getCount, hk, hll]
      · simp [bump, getCount, hk, hl, ih]

theorem count_event_types_sum (E : List Event) :
    ∀ acc, sumCounts (E.foldl (fun acc e => bump (eventLabel e) acc) acc) =
      sumCounts acc + E.length := by
  induction E with
  | nil => intro acc; simp
  | cons e es ih =>
    intro acc
    rw [List.foldl_cons, ih, sumCounts_bump]
    simp [List.length_cons]
    omega

theorem count_event_types_get (l : String) (E : List Event) :
    ∀ acc, getCount (E.foldl (fun acc e => bump (eventLabel e) acc) acc) l =
      getCount acc l + E.countP (fun e => eventLabel e == l) := by
  induction E with
  | nil => intro acc; simp
  | cons e es ih =>
    intro acc
    rw [List.foldl_cons, ih, getCount_bump, List.countP_cons]
    by_cases h : eventLabel e = l
    · simp only [h, if_true, beq_self_eq_true]
      omega
    · have hb : (eventLabel e == l) = false := by simp [h]
      simp only [h, if_false, hb, Bool.false_eq_true]
      omega

/-- C4: `filter_automated_events(E, U)` is exactly the subsequence of events
whose `created_by` is null/absent or not a member of `U`, in input order, with
no element duplicated or dropped (it is a filter of `E`, hence a sublist). -/
theorem c4_filter_automated_exact (E : List Event) (U : List Int) :
    filter_automated_events E U =
      E.filter (fun e => decide (e.created_by = none ∨ ∀ u ∈ U, e.created_by ≠ some u)) ∧
    List.Sublist (filter_automated_events E U) E := by
  have hfe : filter_automated_events E U = E.filter (isAutomated U) := by
    unfold filter_automated_events
    simpa using filter_automated_foldl U E []
  have hpred : isAutomated U =
      fun e => decide (e.created_by = none ∨ ∀ u ∈ U, e.created_by ≠ some u) :=
    funext fun e => isAutomated_eq U e
  constructor
  · rw [hfe, hpred]
  · rw [hfe]
    exact List.filter_sublist E

/-- C5: the per-type counts sum to the number of events, and the count of
each label equals the number of events carrying that `type` — an event with a
missing `type` being counted under the literal label "unknown". -/
theorem c5_count_event_types_total (E : List Event) :
    sumCounts (count_event_types E) = E.length ∧
    ∀ l : String, getCount (count_event_types E) l =
      E.countP (fun e => decide (e.type = some l ∨ (e.type = none ∧ l = "unknown"))) := by
  constructor
  · simpa [count_event_types, sumCounts] using count_event_types_sum E []
  · intro l
    have hp : (fun e => eventLabel e == l) =
        fun e : Event => decide (e.type = some l ∨ (e.type = none ∧ l = "unknown")) := by
      funext e
      cases ht : e.type with
      | none =>
        by_cases hl : l = "unknown"
        · simp [eventLabel, ht, hl]
        · have hl' : ¬ ("unknown" = l) := fun h => hl h.symm
          simp [eventLabel, ht, hl, hl']
      | some t =>
        by_cases hl : t = l <;> simp [eventLabel, ht, hl]
    have h := count_event_types_get l E []
    rw [hp] at h
    simpa [count_event_types, getCount] using h

/-- C3 counterexample: with the configured default top limit 5, a count
mapping with one entry and an explicit limit of 0 yields 1 entry, not
`min 0 1 = 0`: the code's `limit = limit or self.top_limit` treats the falsy
limit 0 as absent and falls back to the configured limit. -/
theorem c3_zero_limit_counterexample :
    ¬ ((get_top_events 5 [("a", 1)] (some 0)).length =
        min 0 [(("a" : String), 1)].length) := by
  decide

/-- C3 amended: for every explicitly passed limit `k ≥ 1`,
`get_top_events(counts, k)` returns exactly `min k (number of entries)` pairs
ordered by count descending; a passed limit of 0 (like an omitted one) falls
back to the configured top limit. -/
theorem c3_top_events_amended :
    (∀ (tl : Nat) (counts : List (String × Nat)) (k : Nat), 1 ≤ k →
      (get_top_events tl counts (some k)).length = min k counts.length ∧
      (get_top_events tl counts (some k)).Pairwise countGE) ∧
    (∀ (tl : Nat) (counts : List (String × Nat)),
      get_top_events tl counts (some 0) = get_top_events tl counts none) := by
  constructor
  · intro tl counts k hk
    have hk0 : ¬ k = 0 := by omega
    have hres : resolveLimit tl (some k) = k := by simp [resolveLimit, hk0]
    constructor
    · show ((sortByCountDesc counts).take (resolveLimit tl (some k))).length = _
      rw [hres, List.length_take, sortByCountDesc, List.length_insertionSort]
    · show ((sortByCountDesc counts).take (resolveLimit tl (some k))).Pairwise countGE
      have hs : (sortByCountDesc counts).Pairwise countGE :=
        List.sorted_insertionSort countGE counts
      exact hs.sublist (List.take_sublist _ _)
  · intro tl counts
    rfl

/-- Witness for C3's amended statement at a concrete mapping and limit 1. -/
theorem c3_top_events_amended_witness :
    (get_top_events 5 [("a", 2), ("b", 9)] (some 1)).length =
      min 1 [(("a" : String), 2), ("b", 9)].length ∧
    (get_top_events 5 [("a", 2), ("b", 9)] (some 1)).Pairwise countGE :=
  c3_top_events_amended.1 5 [("a", 2), ("b", 9)] 1 (by decide)

/-! ### Pagination lemmas -/

theorem getEventsLoop_empty_termination (srv : Server) (N : Nat)
    (hne : ∀ i, 1 ≤ i → i ≤ N → (srv i).events ≠ [])
    (hnext : ∀ i, 1 ≤ i → i ≤ N → (srv i).hasNext = true)
    (hempty : (srv (N + 1)).events = []) :
    ∀ fuel k, k ≤ N → N + 1 - k ≤ fuel →
      getEventsLoop srv fuel (k + 1) (concatPages srv k) k =
        some (concatPages srv N, N + 1) := by
  intro fuel
  induction fuel with
  | zero => intro k hk hf; omega
  | succ fuel ih =>
    intro k hk hf
    by_cases hkN : k = N
    · subst hkN
      simp [getEventsLoop, hempty]
    · have h1 : 1 ≤ k + 1 := by omega
      have h2 : k + 1 ≤ N := by omega
      have he := hne (k + 1) h1 h2
      have hx := hnext (k + 1) h1 h2
      show getEventsLoop srv (fuel + 1) (k + 1) (concatPages srv k) k = _
      unfold getEventsLoop
      simp only [he, if_false, hx, if_true]
      exact ih (k + 1) (by omega) (by omega)

theorem getEventsLoop_nolink_termination (srv : Server) (N : Nat)
    (hne : ∀ i, 1 ≤ i → i ≤ N → (srv i).events ≠ [])
    (hnext : ∀ i, 1 ≤ i → i < N → (srv i).hasNext = true)
    (hlast : (srv N).hasNext = false) :
    ∀ fuel k, k < N → N - k ≤ fuel →
      getEventsLoop srv fuel (k + 1) (concatPages srv k) k =
        some (concatPages srv N, N) := by
  intro fuel
  induction fuel with
  | zero => intro k hk hf; omega
  | succ fuel ih =>
    intro k hk hf
    have h1 : 1 ≤ k + 1 := by omega
    have h2 : k + 1 ≤ N := by omega
    have he := hne (k + 1) h1 h2
    by_cases hkN : k + 1 = N
    · unfold getEventsLoop
      simp only [he, if_false, hkN ▸ hlast, if_false]
      rw [← hkN]
      rfl
    · have hx := hnext (k + 1) h1 (by omega)
      unfold getEventsLoop
      simp only [he, if_false, hx, if_true]
      exact ih (k + 1) (by omega) (by omega)

/-- C6: against a server model returning N non-empty pages and then
signalling termination, the fetch loop terminates (for any iteration budget
of at least N+1) and returns the concatenation of exactly those N pages'
events — with N+1 requests when the page after the last is empty, and N
requests when page N omits the next-page link. -/
theorem c6_get_events_pagination (srv : Server) (N fuel : Nat)
    (hfuel : N + 1 ≤ fuel)
    (hne : ∀ i, 1 ≤ i → i ≤ N → (srv i).events ≠ []) :
    ((∀ i, 1 ≤ i → i ≤ N → (srv i).hasNext = true) →
      (srv (N + 1)).events = [] →
      get_events srv fuel = some (concatPages srv N, N + 1)) ∧
    (1 ≤ N → (∀ i, 1 ≤ i → i < N → (srv i).hasNext = true) →
      (srv N).hasNext = false →
      get_events srv fuel = some (concatPages srv N, N)) := by
  constructor
  · intro hnext hempty
    exact getEventsLoop_empty_termination srv N hne hnext hempty fuel 0
      (by omega) (by omega)
  · intro hN hnext hlast
    exact getEventsLoop_nolink_termination srv N hne hnext hlast fuel 0
      (by omega) (by omega)

/-- Witness for C6 with N = 2 concrete pages under both termination
signals: an empty third page costs 3 requests, a missing next-link on page 2
costs 2 requests. -/
theorem c6_get_events_pagination_witness :
    get_events
      (fun p => if p ≤ 2 then ⟨[⟨some "a", none⟩], true⟩ else ⟨[], false⟩) 3 =
      some ([⟨some "a", none⟩, ⟨some "a", none⟩], 3) ∧
    get_events
      (fun p => if p ≤ 1 then ⟨[⟨some "a", none⟩], true⟩
                else ⟨[⟨some "b", none⟩], false⟩) 3 =
      some ([⟨some "a", none⟩, ⟨some "b", none⟩], 2) := by
  constructor
  · exact (c6_get_events_pagination
      (fun p => if p ≤ 2 then ⟨[⟨some "a", none⟩], true⟩ else ⟨[], false⟩)
      2 3 (by omega)
      (fun i h1 h2 => by
        have : i = 1 ∨ i = 2 := by omega
        rcases this with h | h <;> subst h <;> decide)).1
      (fun i h1 h2 => by
        have : i = 1 ∨ i = 2 := by omega
        rcases this with h | h <;> subst h <;> decide)
      (by decide)
  · exact (c6_get_events_pagination
      (fun p => if p ≤ 1 then ⟨[⟨some "a", none⟩], true⟩
                else ⟨[⟨some "b", none⟩], false⟩)
      2 3 (by omega)
      (fun i h1 h2 => by
        have : i = 1 ∨ i = 2 := by omega
        rcases this with h | h <;> subst h <;> decide)).2
      (by omega)
      (fun i h1 h2 => by
        have : i = 1 := by omega
        subst this; decide)
      (by decide)

/-! ### Latency store lemmas -/

theorem dateChars_length (t : Timestamp) : (dateChars t).length = 10 := by
  simp [dateChars, pad4Chars, pad2Chars]

theorem dateOf_fmtTimestamp (t : Timestamp) :
    dateOf (fmtTimestamp t) = datePart t := by
  have h : (dateChars t ++ timeChars t).take 10 = dateChars t :=
    List.take_left' (dateChars_length t)
  show (⟨(dateChars t ++ timeChars t).take 10⟩ : String) = ⟨dateChars t⟩
  rw [h]

theorem filter_date_of_delete (db : LatencyStore) (d d' : String)
    (hne : d' ≠ d) :
    (db.filter (fun r => !(dateOf r.1 == d))).filter
        (fun r => dateOf r.1 == d') =
      db.filter (fun r => dateOf r.1 == d') := by
  rw [List.filter_filter]
  apply List.filter_congr
  intro r _
  by_cases h : dateOf r.1 = d'
  · have hdd : (dateOf r.1 == d) = false := by
      rw [h]
      exact beq_eq_false_iff_ne.mpr hne
    simp [h, hdd, hne]
  · simp [h]

/-- C7: latency store round trip from the empty store: after
`save_latency(ms, T)`, the max query on T's date returns the formatted
timestamp with ms; after deleting that date the max query returns none; and
deleting a date with no remaining rows reports 0 rows removed. -/
theorem c7_latency_round_trip (ms : Nat) (t : Timestamp) (_hT : t.Valid) :
    get_max_latency_for_date (save_latency [] ms t) (datePart t) =
      some (fmtTimestamp t, ms) ∧
    get_max_latency_for_date
      (delete_latency_for_date (save_latency [] ms t) (datePart t)).1
      (datePart t) = none ∧
    (delete_latency_for_date
      (delete_latency_for_date (save_latency [] ms t) (datePart t)).1
      (datePart t)).2 = 0 := by
  have hd : (dateOf (fmtTimestamp t) == datePart t) = true := by
    rw [dateOf_fmtTimestamp]
    exact beq_self_eq_true _
  refine ⟨?_, ?_, ?_⟩ <;>
    simp [get_max_latency_for_date, save_latency, delete_latency_for_date,
      List.filter, hd, List.insertionSort, List.orderedInsert]

/-- Witness for C7 at a concrete timestamp and latency 150. -/
theorem c7_latency_round_trip_witness :
    get_max_latency_for_date
      (save_latency [] 150 ⟨2025, 1, 15, 18, 23, 0⟩)
      (datePart ⟨2025, 1, 15, 18, 23, 0⟩) =
      some (fmtTimestamp ⟨2025, 1, 15, 18, 23, 0⟩, 150) ∧
    get_max_latency_for_date
      (delete_latency_for_date
        (save_latency [] 150 ⟨2025, 1, 15, 18, 23, 0⟩)
        (datePart ⟨2025, 1, 15, 18, 23, 0⟩)).1
      (datePart ⟨2025, 1, 15, 18, 23, 0⟩) = none ∧
    (delete_latency_for_date
      (delete_latency_for_date
        (save_latency [] 150 ⟨2025, 1, 15, 18, 23, 0⟩)
        (datePart ⟨2025, 1, 15, 18, 23, 0⟩)).1
      (datePart ⟨2025, 1, 15, 18, 23, 0⟩)).2 = 0 :=
  c7_latency_round_trip 150 ⟨2025, 1, 15, 18, 23, 0⟩ (by decide)

/-- C8: date isolation. Deleting a date reports exactly the number of rows
of that date, leaves the rows of every other date unchanged (with
multiplicity and order), and hence leaves the max-latency query of every
other date unchanged. -/
theorem c8_date_isolation (db : LatencyStore) (d d' : String) (hne : d' ≠ d) :
    (delete_latency_for_date db d).2 =
      (db.filter (fun r => dateOf r.1 == d)).length ∧
    (delete_latency_for_date db d).1.filter (fun r => dateOf r.1 == d') =
      db.filter (fun r => dateOf r.1 == d') ∧
    get_max_latency_for_date (delete_latency_for_date db d).1 d' =
      get_max_latency_for_date db d' := by
  refine ⟨rfl, filter_date_of_delete db d d' hne, ?_⟩
  unfold get_max_latency_for_date
  rw [show (delete_latency_for_date db d).1 =
      db.filter (fun r => !(dateOf r.1 == d)) from rfl]
  rw [filter_date_of_delete db d d' hne]

/-- Witness for C8 on the spec's three-date scenario, deleting the middle
date and querying an outer one. -/
theorem c8_date_isolation_witness :
    (delete_latency_for_date
        [("2025-01-14T10:00:00Z", 100), ("2025-01-15T11:00:00Z", 150),
         ("2025-01-15T12:00:00Z", 200), ("2025-01-16T13:00:00Z", 300)]
        "2025-01-15").2 =
      ([("2025-01-14T10:00:00Z", 100), ("2025-01-15T11:00:00Z", 150),
        ("2025-01-15T12:00:00Z", 200), ("2025-01-16T13:00:00Z", 300)].filter
        (fun r => dateOf r.1 == "2025-01-15")).length ∧
    (delete_latency_for_date
        [("2025-01-14T10:00:00Z", 100), ("2025-01-15T11:00:00Z", 150),
         ("2025-01-15T12:00:00Z", 200), ("2025-01-16T13:00:00Z", 300)]
        "2025-01-15").1.filter (fun r => dateOf r.1 == "2025-01-14") =
      [("2025-01-14T10:00:00Z", 100), ("2025-01-15T11:00:00Z", 150),
       ("2025-01-15T12:00:00Z", 200), ("2025-01-16T13:00:00Z", 300)].filter
        (fun r => dateOf r.1 == "2025-01-14") ∧
    get_max_latency_for_date
      (delete_latency_for_date
        [("2025-01-14T10:00:00Z", 100), ("2025-01-15T11:00:00Z", 150),
         ("2025-01-15T12:00:00Z", 200), ("2025-01-16T13:00:00Z", 300)]
        "2025-01-15").1 "2025-01-14" =
      get_max_latency_for_date
        [("2025-01-14T10:00:00Z", 100), ("2025-01-15T11:00:00Z", 150),
         ("2025-01-15T12:00:00Z", 200), ("2025-01-16T13:00:00Z", 300)]
        "2025-01-14" :=
  c8_date_isolation
    [("2025-01-14T10:00:00Z", 100), ("2025-01-15T11:00:00Z", 150),
     ("2025-01-15T12:00:00Z", 200), ("2025-01-16T13:00:00Z", 300)]
    "2025-01-15" "2025-01-14" (by decide)

/-! ### Timestamp parsing lemmas -/

theorem reportRows_length (ds : String) (ml : Option (String × Nat)) :
    ∀ (i : Nat) (tes : List (String × Nat)),
      (reportRows ds ml i tes).length = tes.length := by
  intro i tes
  induction tes generalizing i with
  | nil => rfl
  | cons p rest ih =>
    obtain ⟨ty, c⟩ := p
    simp [reportRows, ih]

theorem reportRows_get_blank (ds : String) (ml : Option (String × Nat)) :
    ∀ (tes : List (String × Nat)) (start : Nat), 1 ≤ start →
      ∀ (i : Nat) (ty : String) (c : Nat), tes.get? i = some (ty, c) →
        (reportRows ds ml start tes).get? i =
          some [.str ds, .str (get_event_name ty), .num c, .str "", .str ""] := by
  intro tes
  induction tes with
  | nil =>
    intro start hs i ty c h
    simp [List.get?] at h
  | cons p rest ih =>
    intro start hs i ty c h
    obtain ⟨ty0, c0⟩ := p
    obtain ⟨k, rfl⟩ : ∃ k, start = k + 1 := ⟨start - 1, by omega⟩
    cases i with
    | zero =>
      simp only [List.get?] at h
      obtain ⟨rfl, rfl⟩ : ty0 = ty ∧ c0 = c := by
        have := Option.some.inj h
        exact ⟨congrArg Prod.fst this, congrArg Prod.snd this⟩
      rfl
    | succ j =>
      simp only [reportRows, List.get?] at h ⊢
      exact ih (k + 2) (by omega) j ty c h

theorem reportRows_get_zero (ds : String) (ml : Option (String × Nat))
    (ty : String) (c : Nat) (rest : List (String × Nat)) :
    (reportRows ds ml 0 ((ty, c) :: rest)).get? 0 =
      some (match ml with
        | some (pt, lms) => [.str ds, .str (get_event_name ty), .num c,
            .num lms, .str (format_time pt)]
        | none => [.str ds, .str (get_event_name ty), .num c,
            .str "", .str ""]) := by
  cases ml with
  | none => rfl
  | some p =>
    obtain ⟨pt, lms⟩ := p
    rfl

/-- C9 counterexample: the placeholder row's label is the source literal
"Нет событий", not the English "No events" the claim states. -/
theorem c9_placeholder_label_counterexample :
    ¬ (prepare_report_data ⟨2025, 1, 15, 0, 0, 0⟩ [] none =
      [[.str (format_date ⟨2025, 1, 15, 0, 0, 0⟩), .str "No events", .num 0,
        .str "", .str ""]]) := by
  decide

/-- C9 amended: `prepare_report_data` returns exactly one row per top-event
entry; the peak latency and peak time cells are populated only on row 0 (and
only when a peak exists) and are empty strings on every later row; for an
empty top-events list with no peak it returns exactly one placeholder row
whose label is the literal "Нет событий" (Russian for "No events") with
count 0 and blank peak cells. -/
theorem c9_report_rows_amended (d : Timestamp) (tes : List (String × Nat))
    (ml : Option (String × Nat)) :
    (tes = [] → ml = none →
      prepare_report_data d tes ml =
        [[.str (format_date d), .str "Нет событий", .num 0,
          .str "", .str ""]]) ∧
    (tes ≠ [] →
      (prepare_report_data d tes ml).length = tes.length ∧
      (∀ i ty c, 1 ≤ i → tes.get? i = some (ty, c) →
        (prepare_report_data d tes ml).get? i =
          some [.str (format_date d), .str (get_event_name ty), .num c,
            .str "", .str ""]) ∧
      (∀ ty c, tes.get? 0 = some (ty, c) →
        (prepare_report_data d tes ml).get? 0 =
          some (match ml with
            | some (pt, lms) => [.str (format_date d),
                .str (get_event_name ty), .num c, .num lms,
                .str (format_time pt)]
            | none => [.str (format_date d), .str (get_event_name ty),
                .num c, .str "", .str ""]))) := by
  constructor
  · rintro rfl rfl
    rfl
  · intro hne
    obtain ⟨⟨ty0, c0⟩, rest, rfl⟩ : ∃ p rest, tes = p :: rest := by
      cases tes with
      | nil => exact absurd rfl hne
      | cons p r => exact ⟨p, r, rfl⟩
    refine ⟨?_, ?_, ?_⟩
    · show (reportRows (format_date d) ml 0 ((ty0, c0) :: rest)).length = _
      exact reportRows_length _ _ 0 _
    · intro i ty c hi h
      obtain ⟨j, rfl⟩ : ∃ j, i = j + 1 := ⟨i - 1, by omega⟩
      show (reportRows (format_date d) ml 0 ((ty0, c0) :: rest)).get? (j + 1) = _
      simp only [reportRows, List.get?] at h ⊢
      exact reportRows_get_blank _ _ rest 1 (by omega) j ty c h
    · intro ty c h
      simp only [List.get?] at h
      obtain ⟨rfl, rfl⟩ : ty0 = ty ∧ c0 = c := by
        have := Option.some.inj h
        exact ⟨congrArg Prod.fst this, congrArg Prod.snd this⟩
      exact reportRows_get_zero _ _ _ _ _

/-- Witness for C9's amended statement: the empty report at a concrete date,
and row 1 of a concrete two-entry report with a peak, whose peak cells are
blank. -/
theorem c9_report_rows_amended_witness :
    prepare_report_data ⟨2025, 1, 16, 0, 0, 0⟩ [] none =
      [[.str (format_date ⟨2025, 1, 16, 0, 0, 0⟩), .str "Нет событий",
        .num 0, .str "", .str ""]] ∧
    (prepare_report_data ⟨2025, 1, 16, 0, 0, 0⟩
        [("lead_added", 116), ("task_added", 114)]
        (some ("2025-01-15T18:23:00Z", 72))).get? 1 =
      some [.str (format_date ⟨2025, 1, 16, 0, 0, 0⟩),
        .str (get_event_name "task_added"), .num 114, .str "", .str ""] :=
  ⟨(c9_report_rows_amended ⟨2025, 1, 16, 0, 0, 0⟩ [] none).1 rfl rfl,
   ((c9_report_rows_amended ⟨2025, 1, 16, 0, 0, 0⟩
      [("lead_added", 116), ("task_added", 114)]
      (some ("2025-01-15T18:23:00Z", 72))).2 (by decide)).2.1 1
      "task_added" 114 (by omega) (by decide)⟩

end AmoMonitor
